import Mathlib

/-!
Shallow embedding of the `testing_GraphRag` repository (three Python scripts:
`ingest.py`, `graphrag_app.py`, `verify_setup.py`) and proofs about the
claims of its specification.

The embedding models:
* the regex extraction `re.findall(r"STD\s?([0-9]+)", content)` used by
  `create_relationships` in `ingest.py`;
* the graph database state (nodes and relationships written by the
  ingestion), with Cypher `MERGE`/`CREATE`/`MATCH` semantics made explicit;
* the ingestion pipeline `main` of `ingest.py` (constraint/index setup,
  full clear, CAD reload, RDS reload, reference linking);
* the try/except/finally shape of `main`, the module-level environment
  checks of all three scripts, and the command-line entry of
  `graphrag_app.py`.

External services (the embedding model, the chat model) are parameters:
an embedding is an abstract function `String → List Int`, the RAG search
an abstract fallible function `String → Except String String`.
-/

namespace GraphRag

/-! ## Regex `STD\s?([0-9]+)` from `create_relationships` (ingest.py line 139) -/

/-- ASCII whitespace as matched by Python's `\s` (the repository's note
contents are ASCII; the Unicode extension of `\s` is not exercised). -/
def isPySpace (c : Char) : Bool :=
  c = ' ' || c = '\t' || c = '\n' || c = '\r' || c = '\x0b' || c = '\x0c'

/-- Split off the longest leading run of ASCII digits (`[0-9]+` is greedy). -/
def takeDigits : List Char → List Char × List Char
  | [] => ([], [])
  | c :: cs =>
    if c.isDigit then
      let (d, r) := takeDigits cs
      (c :: d, r)
    else ([], c :: cs)

/-- Try to match `STD\s?([0-9]+)` at the head of the character list.
Returns the captured digit group and the remainder after the match.
`\s?` is greedy but backtracking is vacuous: if the character after the
whitespace is not a digit, the whitespace itself is not a digit either. -/
def matchSTDAt : List Char → Option (List Char × List Char)
  | 'S' :: 'T' :: 'D' :: rest =>
    match rest with
    | [] => none
    | c :: cs =>
      if isPySpace c then
        match takeDigits cs with
        | (d :: ds, r) => some (d :: ds, r)
        | ([], _) => none
      else
        match takeDigits (c :: cs) with
        | (d :: ds, r) => some (d :: ds, r)
        | ([], _) => none
  | _ => none

/-- Fuelled scanner for `re.findall`: leftmost, non-overlapping matches,
collecting the captured digit groups.  Each step consumes at least one
character, so fuel equal to the length of the input suffices. -/
def findallGo : Nat → List Char → List (List Char)
  | 0, _ => []
  | _ + 1, [] => []
  | fuel + 1, c :: cs =>
    match matchSTDAt (c :: cs) with
    | some (d, rest) => d :: findallGo fuel rest
    | none => findallGo fuel cs

/-- `re.findall(r"STD\s?([0-9]+)", s)`: the list of captured digit groups. -/
def findallSTD (s : String) : List String :=
  (findallGo s.data.length s.data).map String.mk

/-! ## Substring containment: Cypher `CONTAINS` (ingest.py line 150) -/

/-- `leadsWith pat l` : `pat` is an initial segment of `l`. -/
def leadsWith : List Char → List Char → Bool
  | [], _ => true
  | _ :: _, [] => false
  | a :: as, b :: bs => a == b && leadsWith as bs

/-- `containsSub l sub` : `sub` occurs contiguously inside `l`. -/
def containsSub : List Char → List Char → Bool
  | l, sub =>
    match l with
    | [] => leadsWith sub []
    | _ :: t => leadsWith sub l || containsSub t sub

/-- Cypher `s CONTAINS sub` on strings. -/
def strContains (s sub : String) : Bool :=
  containsSub s.data sub.data

/-! ## Source database rows (the two SQLite files read by ingest.py) -/

/-- A row of table `cad_files` in `data/harvested_cad.db`. -/
structure CadFileRow where
  file_id : String
  file_name : String
  file_type : String
  part_number : String
  revision : String
  file_size_bytes : Nat
  extraction_status : String
deriving DecidableEq

/-- A row of table `cad_engineering_notes` (column `id` is the note id). -/
structure NoteRow where
  id : String
  file_id : String
  note_type : String
  note_code : String
  note_value : String
deriving DecidableEq

/-- A row of table `cad_material_properties`. -/
structure MaterialRow where
  file_id : String
  material_name : String
  material_standard : String
  density : String
deriving DecidableEq

/-- A row of table `rds_documents` in `data/harvested_rds.db`.
`title` may be NULL in the source, hence `Option`. -/
structure DocRow where
  doc_id : String
  standard_code : String
  title : Option String
  total_pages : Nat
  extraction_date : String
deriving DecidableEq

/-- The CAD source database. -/
structure CadDb where
  cad_files : List CadFileRow
  cad_engineering_notes : List NoteRow
  cad_material_properties : List MaterialRow
deriving DecidableEq

/-- The RDS (standards) source database. -/
structure RdsDb where
  rds_documents : List DocRow
deriving DecidableEq

/-! ## Graph nodes and graph state -/

/-- A `:CADFile` node (properties set by `ingest_cad_data`). -/
structure CADFileNode where
  file_id : String
  file_name : String
  file_type : String
  part_number : String
  revision : String
  file_size : Nat
  extraction_status : String
deriving DecidableEq

/-- An `:EngineeringNote` node.  `nodeKey` is the internal node identity:
Cypher `CREATE` makes a fresh node on every execution, even when another
node already carries the same `note_id` property (there is no uniqueness
constraint on `note_id`). -/
structure EngNoteNode where
  nodeKey : Nat
  note_id : String
  note_type : String
  note_number : String
  content : String
deriving DecidableEq

/-- A `:Material` node, merged by `name`. -/
structure MaterialNode where
  name : String
  standard : String
  density : String
deriving DecidableEq

/-- A `:StandardDocument` node; `embedding` is the stored vector. -/
structure StandardNode where
  doc_id : String
  standard_code : String
  title : Option String
  total_pages : Nat
  extraction_timestamp : String
  embedding : List Int
deriving DecidableEq

/-- The data content of the graph database: node lists and relationship
lists.  `hasNote` pairs a `file_id` with a note's `nodeKey`; `hasMaterial`
pairs a `file_id` with a material `name`; `references` pairs a note's
`nodeKey` with a `doc_id`.  `nextKey` supplies fresh internal node ids. -/
structure Graph where
  cadFiles : List CADFileNode
  engNotes : List EngNoteNode
  materials : List MaterialNode
  standards : List StandardNode
  hasNote : List (String × Nat)
  hasMaterial : List (String × String)
  references : List (Nat × String)
  nextKey : Nat
deriving DecidableEq

/-- The graph with no data (`MATCH (n) DETACH DELETE n` leaves this). -/
def emptyGraph : Graph :=
  { cadFiles := [], engNotes := [], materials := [], standards := []
    hasNote := [], hasMaterial := [], references := [], nextKey := 0 }

/-- Number of graph nodes. -/
def nodeCount (g : Graph) : Nat :=
  g.cadFiles.length + g.engNotes.length + g.materials.length + g.standards.length

/-- Number of graph relationships. -/
def edgeCount (g : Graph) : Nat :=
  g.hasNote.length + g.hasMaterial.length + g.references.length

/-- The full database state: the data plus the schema objects
(uniqueness constraints, named as label/property pairs, and the single
vector index `standard_embeddings` with its dimension and similarity
function).  `MATCH (n) DETACH DELETE n` clears only the data. -/
structure Store where
  graph : Graph
  constraints : List (String × String)
  vectorIndex : Option (Nat × String)
deriving DecidableEq

/-- A store with no data and no schema objects. -/
def initStore : Store :=
  { graph := emptyGraph, constraints := [], vectorIndex := none }

/-! ## `setup_constraints` and `clear_database` (ingest.py lines 32-52) -/

/-- `CREATE CONSTRAINT IF NOT EXISTS`: add a constraint unless present. -/
def addConstraint (cs : List (String × String)) (c : String × String) :
    List (String × String) :=
  if c ∈ cs then cs else cs ++ [c]

/-- `setup_constraints`: three uniqueness constraints (on
`CADFile.file_id`, `StandardDocument.doc_id` and `Section.section_id`),
then drop the vector index `standard_embeddings` and recreate it with
768 dimensions and cosine similarity. -/
def setup_constraints (s : Store) : Store :=
  { s with
    constraints :=
      addConstraint
        (addConstraint
          (addConstraint s.constraints ("CADFile", "file_id"))
          ("StandardDocument", "doc_id"))
        ("Section", "section_id")
    vectorIndex := some (768, "cosine") }

/-- `clear_database`: `MATCH (n) DETACH DELETE n` removes every node and
relationship; schema objects survive. -/
def clear_database (s : Store) : Store :=
  { s with graph := emptyGraph }

/-! ## `ingest_cad_data` (ingest.py lines 54-100) -/

/-- One `cad_files` row: `MERGE (c:CADFile {file_id: $file_id}) SET ...`.
If a node with the `file_id` exists its properties are overwritten,
otherwise a new node is created. -/
def merge_cad_file (g : Graph) (row : CadFileRow) : Graph :=
  let node : CADFileNode :=
    { file_id := row.file_id, file_name := row.file_name
      file_type := row.file_type, part_number := row.part_number
      revision := row.revision, file_size := row.file_size_bytes
      extraction_status := row.extraction_status }
  if g.cadFiles.any (fun c => c.file_id == row.file_id) then
    { g with cadFiles :=
        g.cadFiles.map (fun c => if c.file_id == row.file_id then node else c) }
  else
    { g with cadFiles := g.cadFiles ++ [node] }

/-- One `cad_engineering_notes` row:
`MATCH (c:CADFile {file_id: $file_id}) CREATE (n:EngineeringNote {...})
CREATE (c)-[:HAS_NOTE]->(n)`.  When no `CADFile` matches, the statement
touches nothing; otherwise a fresh note node and a `HAS_NOTE` edge are
created. -/
def create_note (g : Graph) (row : NoteRow) : Graph :=
  if g.cadFiles.any (fun c => c.file_id == row.file_id) then
    let node : EngNoteNode :=
      { nodeKey := g.nextKey, note_id := row.id, note_type := row.note_type
        note_number := row.note_code, content := row.note_value }
    { g with
      engNotes := g.engNotes ++ [node]
      hasNote := g.hasNote ++ [(row.file_id, g.nextKey)]
      nextKey := g.nextKey + 1 }
  else g

/-- One `cad_material_properties` row:
`MATCH (c:CADFile {file_id: $file_id}) MERGE (m:Material {name: ...})
SET ... MERGE (c)-[:HAS_MATERIAL]->(m)`. -/
def merge_material (g : Graph) (row : MaterialRow) : Graph :=
  if g.cadFiles.any (fun c => c.file_id == row.file_id) then
    let node : MaterialNode :=
      { name := row.material_name, standard := row.material_standard
        density := row.density }
    let g1 : Graph :=
      if g.materials.any (fun m => m.name == row.material_name) then
        { g with materials :=
            g.materials.map (fun m => if m.name == row.material_name then node else m) }
      else
        { g with materials := g.materials ++ [node] }
    if (row.file_id, row.material_name) ∈ g1.hasMaterial then g1
    else { g1 with hasMaterial := g1.hasMaterial ++ [(row.file_id, row.material_name)] }
  else g

/-- `ingest_cad_data`: all `cad_files` rows, then all
`cad_engineering_notes` rows, then all `cad_material_properties` rows. -/
def ingest_cad_data (db : CadDb) (g : Graph) : Graph :=
  let g1 := db.cad_files.foldl merge_cad_file g
  let g2 := db.cad_engineering_notes.foldl create_note g1
  db.cad_material_properties.foldl merge_material g2

/-! ## `ingest_rds_data` (ingest.py lines 102-126) -/

/-- `MERGE (s:StandardDocument {doc_id: $doc_id}) SET ...` with the
already-computed embedding vector. -/
def merge_standard (g : Graph) (row : DocRow) (embedding : List Int) : Graph :=
  let node : StandardNode :=
    { doc_id := row.doc_id, standard_code := row.standard_code
      title := row.title, total_pages := row.total_pages
      extraction_timestamp := row.extraction_date, embedding := embedding }
  if g.standards.any (fun s => s.doc_id == row.doc_id) then
    { g with standards :=
        g.standards.map (fun s => if s.doc_id == row.doc_id then node else s) }
  else
    { g with standards := g.standards ++ [node] }

/-- The loop body of `ingest_rds_data`: build
`text_to_embed = f"{standard_code} {title}"` (a falsy `title` becomes
`""`), call the embedding service on it, and merge the node.  The second
component logs the text submitted to the embedding service. -/
def rdsStep (embed : String → List Int) (acc : Graph × List String)
    (doc : DocRow) : Graph × List String :=
  let title := doc.title.getD ""
  let text_to_embed := doc.standard_code ++ " " ++ title
  let embedding := embed text_to_embed
  (merge_standard acc.1 doc embedding, acc.2 ++ [text_to_embed])

/-- `ingest_rds_data`: process every `rds_documents` row in order.
Besides the graph, the list of texts submitted to the embedding service
is returned, in row order. -/
def ingest_rds_data (embed : String → List Int) (docs : List DocRow)
    (g : Graph) : Graph × List String :=
  docs.foldl (rdsStep embed) (g, [])

/-- Look up the `:StandardDocument` node with a given `doc_id`. -/
def find_standard (g : Graph) (did : String) : Option StandardNode :=
  g.standards.find? (fun s => s.doc_id == did)

/-! ## `create_relationships` (ingest.py lines 128-158) -/

/-- The result rows of
`MATCH (n:EngineeringNote {note_id: $note_id}) MATCH (s:StandardDocument)
WHERE s.standard_code CONTAINS $code_num`: one `(nodeKey, doc_id)` pair
per matching note node and standard. -/
def refPairs (g : Graph) (note_id code_num : String) : List (Nat × String) :=
  (g.engNotes.filter (fun n => n.note_id == note_id)).foldl
    (fun acc n =>
      acc ++
        (g.standards.filter (fun s => strContains s.standard_code code_num)).map
          (fun s => (n.nodeKey, s.doc_id)))
    []

/-- `MERGE (n)-[:REFERENCES]->(s)` for each result row: append each pair
unless an identical edge already exists. -/
def mergeRefs (refs pairs : List (Nat × String)) : List (Nat × String) :=
  pairs.foldl (fun r p => if p ∈ r then r else r ++ [p]) refs

/-- Run the linking statement for one note id and one extracted code. -/
def linkOne (g : Graph) (note_id code_num : String) : Graph :=
  { g with references := mergeRefs g.references (refPairs g note_id code_num) }

/-- `create_relationships`: for every fetched note row, extract
`re.findall(r"STD\s?([0-9]+)", content)` and run the `MERGE` statement
for each captured digit group. -/
def create_relationships (g : Graph) : Graph :=
  g.engNotes.foldl
    (fun acc note =>
      (findallSTD note.content).foldl
        (fun a code_num => linkOne a note.note_id code_num) acc)
    g

/-! ## `main` of ingest.py (lines 160-171) -/

/-- The happy-path pipeline of `main`: `setup_constraints`,
`clear_database`, `ingest_cad_data`, `ingest_rds_data`,
`create_relationships`, in that order, over the whole store. -/
def ingestMain (embed : String → List Int) (cad : CadDb) (rds : RdsDb)
    (s : Store) : Store :=
  let s1 := setup_constraints s
  let s2 := clear_database s1
  let g3 := ingest_cad_data cad s2.graph
  let g4 := (ingest_rds_data embed rds.rds_documents g3).1
  let g5 := create_relationships g4
  { s2 with graph := g5 }

/-! ## The try/except/finally shape of `main` (ingest.py lines 160-171)

`main` runs five phases inside one `try`; any exception is caught by the
single `except`, printed, and the function returns; the `finally` closes
the graph driver in every case.  Phases are modelled as fallible state
transformers. -/

/-- One item of a handler's diagnostic output: a printed message, or the
stack trace emitted by `traceback.print_exc()`.  The `except` branch of
`main` in ingest.py prints only `f"An error occurred: {e}"`; the
traceback print exists only in the query tool's handler
(graphrag_app.py lines 74-75). -/
inductive LogItem
  | message (s : String)
  | traceback
deriving DecidableEq

/-- The observable outcome of `main`: the store if every phase succeeded,
the diagnostic output printed by the `try`/`except`, and whether
`driver.close()` ran. -/
structure MainOutcome where
  finalStore : Option Store
  printedLog : List LogItem
  driverClosed : Bool
deriving DecidableEq

/-- The `try` body: the five phases in sequence, short-circuiting on the
first raised exception. -/
def runPhases (p1 p2 p3 p4 p5 : Store → Except String Store) (s : Store) :
    Except String Store :=
  match p1 s with
  | .error e => .error e
  | .ok s1 =>
    match p2 s1 with
    | .error e => .error e
    | .ok s2 =>
      match p3 s2 with
      | .error e => .error e
      | .ok s3 =>
        match p4 s3 with
        | .error e => .error e
        | .ok s4 => p5 s4

/-- `main`: run the `try` body; on success `print("Ingestion complete!")`
runs, on failure `print(f"An error occurred: {e}")` runs — the message
only, no traceback — and execution stops; `finally` closes the driver
either way. -/
def pyMain (p1 p2 p3 p4 p5 : Store → Except String Store) (s : Store) :
    MainOutcome :=
  match runPhases p1 p2 p3 p4 p5 s with
  | .ok s5 =>
    { finalStore := some s5
      printedLog := [LogItem.message "Ingestion complete!"]
      driverClosed := true }
  | .error e =>
    { finalStore := none
      printedLog := [LogItem.message ("An error occurred: " ++ e)]
      driverClosed := true }

/-- Lift an infallible phase. -/
def okPhase (f : Store → Store) : Store → Except String Store :=
  fun s => .ok (f s)

/-! ## Module-level environment checks (all three scripts)

`ingest.py` lines 12-25, `graphrag_app.py` lines 12-33, and
`verify_setup.py` lines 12-21 read `NEO4J_URI`, `NEO4J_USERNAME`,
`NEO4J_PASSWORD` and bail out when `not all([...])`, i.e. when any of the
three is `None` or empty. -/

/-- A process environment. -/
def Env : Type := List (String × String)

/-- `os.getenv`. -/
def getenv (env : Env) (key : String) : Option String :=
  (env.find? (fun p => p.1 == key)).map (fun p => p.2)

/-- Python truthiness of an optional string: `None` and `""` are falsy. -/
def truthy : Option String → Bool
  | none => false
  | some s => !(s == "")

/-- `all([NEO4J_URI, NEO4J_USERNAME, NEO4J_PASSWORD])`. -/
def envOk (env : Env) : Bool :=
  truthy (getenv env "NEO4J_URI") &&
  truthy (getenv env "NEO4J_USERNAME") &&
  truthy (getenv env "NEO4J_PASSWORD")

/-- The external services a script can contact. -/
inductive Service
  | graphDb
  | embeddings
  | chatModel
deriving DecidableEq

/-- What a script's startup did: which services its client objects are
wired to contact, whether it bailed out early, and what it printed. -/
structure ScriptStart where
  contacted : List Service
  exitedEarly : Bool
  printed : List String
deriving DecidableEq

/-- Module level of `ingest.py`: on a falsy variable, print and
`exit(1)` before the graph driver or the embedding client exist;
otherwise construct both and proceed to `main`. -/
def ingestStartup (env : Env) : ScriptStart :=
  if envOk env then
    { contacted := [Service.graphDb, Service.embeddings], exitedEarly := false
      printed := [] }
  else
    { contacted := [], exitedEarly := true
      printed := ["Error: Missing environment variables. Please check your .env file."] }

/-- Module level of `graphrag_app.py`: same check, then driver, embedder,
retriever and chat model are constructed. -/
def appStartup (env : Env) : ScriptStart :=
  if envOk env then
    { contacted := [Service.graphDb, Service.embeddings, Service.chatModel]
      exitedEarly := false, printed := [] }
  else
    { contacted := [], exitedEarly := true
      printed := ["Error: Missing environment variables."] }

/-- `verify()` of `verify_setup.py`: the check happens first inside the
function; on failure it prints and returns before any driver exists. -/
def verifyStartup (env : Env) : ScriptStart :=
  if envOk env then
    { contacted := [Service.graphDb], exitedEarly := false
      printed := ["Verifying Setup..."] }
  else
    { contacted := [], exitedEarly := true
      printed := ["Verifying Setup...", "FAILED: Missing environment variables."] }

/-! ## `graphrag_app.py` command line (lines 67-84) -/

/-- The observable behaviour of one run of the query script: the lines
printed and the questions submitted to the retrieve-then-generate chain. -/
structure QueryRun where
  printed : List String
  ragQueries : List String
deriving DecidableEq

/-- `query_graph(question)`: print the question, call `rag.search`, print
the answer; an exception is caught, its traceback printed, and the run
ends gracefully. -/
def query_graph (rag : String → Except String String) (question : String) :
    QueryRun :=
  match rag question with
  | .ok answer =>
    { printed := ["\nQuestion: " ++ question, "Answer: " ++ answer]
      ragQueries := [question] }
  | .error e =>
    { printed := ["\nQuestion: " ++ question, "Error processing query: " ++ e]
      ragQueries := [question] }

/-- `__main__` of `graphrag_app.py`: with positional arguments
(`len(sys.argv) > 1`) join them with spaces and query; otherwise print
the usage line and run nothing.  `argv` includes the program name at
index 0, as `sys.argv` does. -/
def appMain (rag : String → Except String String) (argv : List String) :
    QueryRun :=
  if argv.length > 1 then
    let q := String.intercalate " " (argv.drop 1)
    query_graph rag q
  else
    { printed := ["Usage: python graphrag_app.py 'Your question here'"]
      ragQueries := [] }

/-! ## Auxiliary predicates used in theorem statements -/

/-- The property values of an `:EngineeringNote` node are the ones of a
`cad_engineering_notes` row. -/
def noteRowMatches (row : NoteRow) (n : EngNoteNode) : Prop :=
  n.note_id = row.id ∧ n.note_type = row.note_type ∧
  n.note_number = row.note_code ∧ n.content = row.note_value

/-- Invariant: every `:EngineeringNote` node arises from a note row `row`
with `P row`, carries the row's property values, has exactly one incoming
`HAS_NOTE` edge, from the `file_id` of its row, and that `file_id` has a
`:CADFile` node.  The first two conjuncts bound the internal node keys so
that freshly created nodes are distinct from existing ones. -/
def notesWellAttached (P : NoteRow → Prop) (g : Graph) : Prop :=
  (∀ n ∈ g.engNotes, n.nodeKey < g.nextKey) ∧
  (∀ e ∈ g.hasNote, e.2 < g.nextKey) ∧
  (∀ n ∈ g.engNotes, ∃ row, P row ∧ noteRowMatches row n ∧
    g.hasNote.filter (fun e => e.2 == n.nodeKey) = [(row.file_id, n.nodeKey)] ∧
    g.cadFiles.any (fun c => c.file_id == row.file_id) = true)

/-! ## Concrete inputs used by witnesses and counterexamples -/

/-- A graph holding one note citing `STD 42` and one matching standard. -/
def c1Graph : Graph :=
  { emptyGraph with
    engNotes := [{ nodeKey := 0, note_id := "N1", note_type := "general"
                   note_number := "1", content := "Torque values per STD 42 apply" }]
    standards := [{ doc_id := "D1", standard_code := "STD 42"
                    title := some "Torque", total_pages := 3
                    extraction_timestamp := "2024-01-01", embedding := [] }]
    nextKey := 1 }

/-- A graph where a note cites `STD 12` and the only standard is the
unrelated `STD 1234`, whose code contains `"12"` as a proper substring. -/
def c7Graph : Graph :=
  { emptyGraph with
    engNotes := [{ nodeKey := 0, note_id := "N1", note_type := "general"
                   note_number := "1", content := "Tighten per STD 12" }]
    standards := [{ doc_id := "D9", standard_code := "STD 1234"
                    title := some "Unrelated", total_pages := 10
                    extraction_timestamp := "2024-01-01", embedding := [] }]
    nextKey := 1 }

/-- An environment where `NEO4J_PASSWORD` is missing. -/
def c6Env : Env :=
  [("NEO4J_URI", "bolt://localhost:7687"), ("NEO4J_USERNAME", "neo4j")]

/-- A phase that raises. -/
def failPhase : Store → Except String Store :=
  fun _ => .error "boom"

/-- A retrieve-then-generate chain that always answers. -/
def c8Rag : String → Except String String :=
  fun q => .ok ("Answer about " ++ q)

/-- A CAD database with one file, one attached note, and one orphan note
whose `file_id` matches no `cad_files` row. -/
def c10Db : CadDb :=
  { cad_files := [{ file_id := "F1", file_name := "bracket.step"
                    file_type := "step", part_number := "P-100"
                    revision := "A", file_size_bytes := 1024
                    extraction_status := "ok" }]
    cad_engineering_notes :=
      [{ id := "N1", file_id := "F1", note_type := "general"
         note_code := "1", note_value := "Deburr all edges" },
       { id := "N2", file_id := "MISSING", note_type := "general"
         note_code := "2", note_value := "Orphan note" }]
    cad_material_properties := [] }

/-- The note row of `c10Db` whose `file_id` has no `:CADFile` node. -/
def c10OrphanRow : NoteRow :=
  { id := "N2", file_id := "MISSING", note_type := "general"
    note_code := "2", note_value := "Orphan note" }

/-- The `:EngineeringNote` node created by ingesting `c10Db`. -/
def c10Note : EngNoteNode :=
  { nodeKey := 0, note_id := "N1", note_type := "general"
    note_number := "1", content := "Deburr all edges" }

/-! ## Generic fold lemmas -/

/-- A predicate preserved by each step of a fold is preserved by the fold. -/
theorem foldl_pres {σ α : Type} (P : σ → Prop) (f : σ → α → σ) :
    ∀ (l : List α) (s : σ), (∀ t a, a ∈ l → P t → P (f t a)) → P s →
      P (l.foldl f s)
  | [], _, _, hs => hs
  | a :: l, s, h, hs => by
    simp only [List.foldl_cons]
    exact foldl_pres P f l (f s a)
      (fun t b hb ht => h t b (List.mem_cons_of_mem _ hb) ht)
      (h s a (List.mem_cons_self _ _) hs)

/-- If processing the element `x` establishes `P` from an invariant `I`,
and both `I` and `P` are preserved by every step, then folding over a list
containing `x` establishes `P`. -/
theorem foldl_estab {σ α : Type} (I P : σ → Prop) (f : σ → α → σ) (x : α)
    (hI : ∀ t a, I t → I (f t a)) (hP : ∀ t a, P t → P (f t a))
    (hx : ∀ t, I t → P (f t x)) :
    ∀ (l : List α) (s : σ), x ∈ l → I s → P (l.foldl f s) := by
  intro l
  induction l with
  | nil => intro s hmem _; cases hmem
  | cons a t ih =>
    intro s hmem hs
    simp only [List.foldl_cons]
    rcases List.mem_cons.mp hmem with h | h
    · subst h
      exact foldl_pres P f t (f s x) (fun u b _ hu => hP u b hu) (hx s hs)
    · exact ih (f s a) h (hI s a hs)

/-- Membership in the seed survives a fold that only appends. -/
theorem mem_foldl_append_init {α β : Type} (f : α → List β) (b : β) :
    ∀ (l : List α) (init : List β), b ∈ init →
      b ∈ l.foldl (fun acc x => acc ++ f x) init := by
  intro l init h
  exact foldl_pres (fun acc => b ∈ acc) _ l init
    (fun t a _ ht => List.mem_append_left _ ht) h

/-- An element contributed by some list member is in the appending fold. -/
theorem mem_foldl_append {α β : Type} (f : α → List β) (a : α) (b : β)
    (hb : b ∈ f a) :
    ∀ (l : List α) (init : List β), a ∈ l →
      b ∈ l.foldl (fun acc x => acc ++ f x) init := by
  intro l init hl
  exact foldl_estab (fun _ => True) (fun acc => b ∈ acc) _ a
    (fun _ _ _ => trivial) (fun t x ht => List.mem_append_left _ ht)
    (fun t _ => List.mem_append_right _ hb) l init hl trivial

/-! ## C2: idempotent full reload -/

/-- C2: running the full ingestion (`main` of ingest.py) twice against the
same source databases and embedding service yields the same node count and
the same edge count after each run: `clear_database` wipes all data, so a
run's result does not depend on the store it starts from. -/
theorem c2_idempotent_full_reload (embed : String → List Int) (cad : CadDb)
    (rds : RdsDb) (st : Store) :
    nodeCount (ingestMain embed cad rds (ingestMain embed cad rds st)).graph =
      nodeCount (ingestMain embed cad rds st).graph ∧
    edgeCount (ingestMain embed cad rds (ingestMain embed cad rds st)).graph =
      edgeCount (ingestMain embed cad rds st).graph :=
  ⟨rfl, rfl⟩

/-! ## C3: phase order of a full run -/

/-- C3: every full ingestion run recreates the vector index (768
dimensions, cosine), clears all graph data, then rebuilds the graph by
loading CAD data, then standards data, then the reference-linking pass,
starting from the empty graph — the previous graph content never enters;
replacing the starting graph with any other graph leaves the run's result
unchanged (no incremental mode). -/
theorem c3_phase_order (embed : String → List Int) (cad : CadDb)
    (rds : RdsDb) (st : Store) :
    ingestMain embed cad rds st =
      { graph := create_relationships
          ((ingest_rds_data embed rds.rds_documents
            (ingest_cad_data cad emptyGraph)).1)
        constraints := (setup_constraints st).constraints
        vectorIndex := some (768, "cosine") } ∧
    (∀ g' : Graph, ingestMain embed cad rds { st with graph := g' } =
      ingestMain embed cad rds st) :=
  ⟨rfl, fun _ => rfl⟩

/-! ## C7: false-positive links by substring matching -/

/-- C7: the linking pass admits false positives: in `c7Graph` the note
content `"Tighten per STD 12"` yields the digit group `"12"`, which is a
proper substring of the unrelated code `"STD 1234"`, and the pass creates
a `REFERENCES` edge from the note to that unrelated standard. -/
theorem c7_false_positive_link :
    findallSTD "Tighten per STD 12" = ["12"] ∧
    strContains "STD 1234" "12" = true ∧
    "STD 1234" ≠ "STD 12" ∧
    (0, "D9") ∈ (create_relationships c7Graph).references := by
  decide

/-! ## C5: top-level error handling of `main` -/

/-- C5 counterexample: the claim requires the ingestion exception to be
logged with a traceback.  At the concrete run whose first phase raises
`"boom"`, the `except` branch prints exactly `An error occurred: boom`
and its output holds no traceback: ingest.py line 169 prints only the
message (`traceback.print_exc()` exists only in the query tool). -/
theorem c5_traceback_counterexample :
    pyMain failPhase (okPhase id) (okPhase id) (okPhase id) (okPhase id)
        initStore =
      { finalStore := none
        printedLog := [LogItem.message "An error occurred: boom"]
        driverClosed := true } ∧
    ¬ LogItem.traceback ∈
      (pyMain failPhase (okPhase id) (okPhase id) (okPhase id) (okPhase id)
        initStore).printedLog := by
  decide

/-- C5 (amended): in `main` of ingest.py, (1) the driver is closed on
every run; (2) whenever the phase sequence raises, the exception is
caught at top level and logged as the printed message
`An error occurred: {e}` — without a traceback — and no final store is
produced; (3) once a phase raises, the later phases are never consulted
(execution stops); (4) when no phase raises, the run produces the
composed store and prints the completion message. -/
theorem c5_catch_log_stop_close :
    (∀ p1 p2 p3 p4 p5 s, (pyMain p1 p2 p3 p4 p5 s).driverClosed = true) ∧
    (∀ p1 p2 p3 p4 p5 s e, runPhases p1 p2 p3 p4 p5 s = .error e →
      pyMain p1 p2 p3 p4 p5 s =
        { finalStore := none
          printedLog := [LogItem.message ("An error occurred: " ++ e)]
          driverClosed := true } ∧
      ¬ LogItem.traceback ∈ (pyMain p1 p2 p3 p4 p5 s).printedLog) ∧
    (∀ p1 s e, p1 s = .error e → ∀ p2 p3 p4 p5 q2 q3 q4 q5,
      pyMain p1 p2 p3 p4 p5 s = pyMain p1 q2 q3 q4 q5 s) ∧
    (∀ f1 f2 f3 f4 f5 s,
      pyMain (okPhase f1) (okPhase f2) (okPhase f3) (okPhase f4) (okPhase f5) s =
        { finalStore := some (f5 (f4 (f3 (f2 (f1 s)))))
          printedLog := [LogItem.message "Ingestion complete!"]
          driverClosed := true }) := by
  refine ⟨?_, ?_, ?_, ?_⟩
  · intro p1 p2 p3 p4 p5 s
    unfold pyMain
    cases runPhases p1 p2 p3 p4 p5 s <;> rfl
  · intro p1 p2 p3 p4 p5 s e h
    unfold pyMain
    rw [h]
    exact ⟨rfl, by simp⟩
  · intro p1 s e h p2 p3 p4 p5 q2 q3 q4 q5
    unfold pyMain runPhases
    rw [h]
  · intro f1 f2 f3 f4 f5 s
    rfl

/-- Witness for C5: a concrete first phase that raises `"boom"`. -/
theorem c5_catch_log_stop_close_witness :
    runPhases failPhase (okPhase id) (okPhase id) (okPhase id) (okPhase id)
        initStore = .error "boom" ∧
    (pyMain failPhase (okPhase id) (okPhase id) (okPhase id) (okPhase id)
        initStore =
      { finalStore := none
        printedLog := [LogItem.message ("An error occurred: " ++ "boom")]
        driverClosed := true } ∧
    ¬ LogItem.traceback ∈
      (pyMain failPhase (okPhase id) (okPhase id) (okPhase id) (okPhase id)
        initStore).printedLog) :=
  ⟨rfl, c5_catch_log_stop_close.2.1 failPhase (okPhase id) (okPhase id)
    (okPhase id) (okPhase id) initStore "boom" rfl⟩

/-! ## C6: missing environment variables -/

/-- Any missing variable makes the truthiness check fail. -/
theorem envOk_eq_false_of_missing (env : Env)
    (h : getenv env "NEO4J_URI" = none ∨ getenv env "NEO4J_USERNAME" = none ∨
      getenv env "NEO4J_PASSWORD" = none) :
    envOk env = false := by
  rcases h with h | h | h <;> simp [envOk, h, truthy]

/-- C6: whenever one of `NEO4J_URI`, `NEO4J_USERNAME`, `NEO4J_PASSWORD`
is absent from the environment, each of the three scripts exits early
with a message and contacts no external service (neither the graph
database, nor the embedding service, nor the chat model). -/
theorem c6_missing_env_no_contact (env : Env)
    (h : getenv env "NEO4J_URI" = none ∨ getenv env "NEO4J_USERNAME" = none ∨
      getenv env "NEO4J_PASSWORD" = none) :
    (ingestStartup env).contacted = [] ∧ (ingestStartup env).exitedEarly = true ∧
    (appStartup env).contacted = [] ∧ (appStartup env).exitedEarly = true ∧
    (verifyStartup env).contacted = [] ∧ (verifyStartup env).exitedEarly = true := by
  have hf := envOk_eq_false_of_missing env h
  simp [ingestStartup, appStartup, verifyStartup, hf]

/-- Witness for C6: `c6Env` lacks `NEO4J_PASSWORD`. -/
theorem c6_missing_env_no_contact_witness :
    getenv c6Env "NEO4J_PASSWORD" = none ∧
    (ingestStartup c6Env).contacted = [] ∧
    (ingestStartup c6Env).exitedEarly = true ∧
    (appStartup c6Env).contacted = [] ∧ (appStartup c6Env).exitedEarly = true ∧
    (verifyStartup c6Env).contacted = [] ∧
    (verifyStartup c6Env).exitedEarly = true :=
  ⟨by decide, c6_missing_env_no_contact c6Env (Or.inr (Or.inr (by decide)))⟩

/-! ## C8: command line of the query script -/

/-- C8: with at least one positional argument the query script joins the
arguments into one question with single spaces, submits exactly that
question to the retrieve-then-generate chain, and prints the answer;
with no positional argument it prints the usage line and submits no
query at all. -/
theorem c8_query_command_line :
    (∀ (rag : String → Except String String) (argv : List String)
        (answer : String), argv.length > 1 →
      rag (String.intercalate " " (argv.drop 1)) = .ok answer →
      appMain rag argv =
        { printed := ["\nQuestion: " ++ String.intercalate " " (argv.drop 1),
                      "Answer: " ++ answer]
          ragQueries := [String.intercalate " " (argv.drop 1)] }) ∧
    (∀ (rag : String → Except String String) (argv : List String),
      ¬ argv.length > 1 →
      appMain rag argv =
        { printed := ["Usage: python graphrag_app.py 'Your question here'"]
          ragQueries := [] }) := by
  constructor
  · intro rag argv answer hlen hok
    unfold appMain query_graph
    simp only [if_pos hlen]
    simp only [hok]
  · intro rag argv hlen
    unfold appMain
    simp only [if_neg hlen]

/-- Witness for C8: a two-argument invocation and a bare invocation. -/
theorem c8_query_command_line_witness :
    appMain c8Rag ["graphrag_app.py", "which", "standards"] =
      { printed := ["\nQuestion: which standards",
                    "Answer: Answer about which standards"]
        ragQueries := ["which standards"] } ∧
    appMain c8Rag ["graphrag_app.py"] =
      { printed := ["Usage: python graphrag_app.py 'Your question here'"]
        ragQueries := [] } :=
  ⟨c8_query_command_line.1 c8Rag ["graphrag_app.py", "which", "standards"]
      "Answer about which standards" (by decide) rfl,
    c8_query_command_line.2 c8Rag ["graphrag_app.py"] (by decide)⟩

/-! ## C4: uniqueness constraints and material deduplication -/

/-- `CREATE CONSTRAINT IF NOT EXISTS` leaves the constraint present. -/
theorem mem_addConstraint_self (cs : List (String × String))
    (c : String × String) : c ∈ addConstraint cs c := by
  unfold addConstraint
  split
  · assumption
  · exact List.mem_append_right _ (List.mem_singleton.mpr rfl)

/-- `addConstraint` keeps existing constraints. -/
theorem mem_addConstraint_of_mem (cs : List (String × String))
    (c x : String × String) (h : x ∈ cs) : x ∈ addConstraint cs c := by
  unfold addConstraint
  split
  · exact h
  · exact List.mem_append_left _ h

/-- `merge_cad_file` never touches `:Material` nodes. -/
theorem merge_cad_file_materials (g : Graph) (row : CadFileRow) :
    (merge_cad_file g row).materials = g.materials := by
  unfold merge_cad_file
  split <;> rfl

/-- `create_note` never touches `:Material` nodes. -/
theorem create_note_materials (g : Graph) (row : NoteRow) :
    (create_note g row).materials = g.materials := by
  unfold create_note
  split <;> rfl

/-- The `:Material` node list produced by one `merge_material`. -/
theorem merge_material_materials (g : Graph) (row : MaterialRow) :
    (merge_material g row).materials =
      if g.cadFiles.any (fun c => c.file_id == row.file_id) then
        if g.materials.any (fun m => m.name == row.material_name) then
          g.materials.map (fun m =>
            if m.name == row.material_name then
              { name := row.material_name, standard := row.material_standard
                density := row.density }
            else m)
        else
          g.materials ++
            [{ name := row.material_name, standard := row.material_standard
               density := row.density }]
      else g.materials := by
  simp only [merge_material]
  split
  · split
    · split <;> rfl
    · split <;> rfl
  · rfl

/-- `MERGE (m:Material {name: ...})` keeps material names free of
duplicates. -/
theorem merge_material_names_nodup (g : Graph) (row : MaterialRow)
    (h : (g.materials.map (fun m => m.name)).Nodup) :
    ((merge_material g row).materials.map (fun m => m.name)).Nodup := by
  rw [merge_material_materials]
  split
  · split
    · rename_i hany
      rw [List.map_map]
      have : g.materials.map
          ((fun m => m.name) ∘ fun m =>
            if m.name == row.material_name then
              { name := row.material_name, standard := row.material_standard
                density := row.density }
            else m) = g.materials.map (fun m => m.name) := by
        apply List.map_congr_left
        intro m _
        by_cases hm : m.name = row.material_name
        · simp [hm]
        · simp [hm]
      rw [this]
      exact h
    · rename_i hany
      rw [List.map_append, List.nodup_append]
      refine ⟨h, List.nodup_singleton _, ?_⟩
      intro a ha hb
      have hbname : a = row.material_name := by
        simpa using hb
      rcases List.mem_map.mp ha with ⟨m, hm, hname⟩
      have hall : ∀ x ∈ g.materials, ¬ x.name = row.material_name := by
        simpa using hany
      exact hall m hm (hname.trans hbname)
  · exact h

/-- C4 counterexample: `setup_constraints` creates no uniqueness
constraint for `EngineeringNote.note_id` — the third constraint is on
`Section.section_id`, a label the ingestion never writes. -/
theorem c4_note_id_not_constrained :
    ¬ ("EngineeringNote", "note_id") ∈ (setup_constraints initStore).constraints := by
  decide

/-- C4 (amended): `setup_constraints` enforces uniqueness of
`CADFile.file_id`, `StandardDocument.doc_id` and `Section.section_id` —
and nothing else when starting from an empty store; `EngineeringNote`
nodes get no constraint.  Material nodes are deduplicated by name: after
`ingest_cad_data` runs on the cleared graph, the material names carry no
duplicate, so two material rows with the same `material_name` yield one
`:Material` node. -/
theorem c4_constraints_and_material_dedup :
    (∀ s : Store,
      ("CADFile", "file_id") ∈ (setup_constraints s).constraints ∧
      ("StandardDocument", "doc_id") ∈ (setup_constraints s).constraints ∧
      ("Section", "section_id") ∈ (setup_constraints s).constraints) ∧
    (setup_constraints initStore).constraints =
      [("CADFile", "file_id"), ("StandardDocument", "doc_id"),
        ("Section", "section_id")] ∧
    (∀ db : CadDb,
      ((ingest_cad_data db emptyGraph).materials.map (fun m => m.name)).Nodup) := by
  refine ⟨?_, by decide, ?_⟩
  · intro s
    refine ⟨?_, ?_, ?_⟩
    · exact mem_addConstraint_of_mem _ _ _
        (mem_addConstraint_of_mem _ _ _ (mem_addConstraint_self _ _))
    · exact mem_addConstraint_of_mem _ _ _ (mem_addConstraint_self _ _)
    · exact mem_addConstraint_self _ _
  · intro db
    unfold ingest_cad_data
    apply foldl_pres (fun g => (g.materials.map (fun m => m.name)).Nodup)
      merge_material _ _
      (fun t a _ ht => merge_material_names_nodup t a ht)
    apply foldl_pres (fun g => (g.materials.map (fun m => m.name)).Nodup)
      create_note _ _
      (fun t a _ ht => by rw [create_note_materials]; exact ht)
    apply foldl_pres (fun g => (g.materials.map (fun m => m.name)).Nodup)
      merge_cad_file _ _
      (fun t a _ ht => by rw [merge_cad_file_materials]; exact ht)
    simp [emptyGraph]

/-! ## C9: the text submitted to the embedding service -/

/-- The embedding-service log of the RDS loop: one text per row, in row
order, each being the standard code, a space, and the defaulted title. -/
theorem rds_fold_log (embed : String → List Int) :
    ∀ (docs : List DocRow) (g : Graph) (log : List String),
      (docs.foldl (rdsStep embed) (g, log)).2 =
        log ++ docs.map (fun d => d.standard_code ++ " " ++ d.title.getD "") := by
  intro docs
  induction docs with
  | nil => intro g log; simp
  | cons d t ih =>
    intro g log
    simp only [List.foldl_cons, List.map_cons]
    rw [show rdsStep embed (g, log) d =
      (merge_standard g d (embed (d.standard_code ++ " " ++ d.title.getD "")),
        log ++ [d.standard_code ++ " " ++ d.title.getD ""]) from rfl]
    rw [ih]
    simp

/-- After updating every node carrying the `doc_id` in place, `find?`
returns the updated node, provided some node carried it. -/
theorem find?_update_of_any (did : String) (node : StandardNode)
    (hnode : (node.doc_id == did) = true) :
    ∀ l : List StandardNode, l.any (fun s => s.doc_id == did) = true →
      (l.map (fun s => if s.doc_id == did then node else s)).find?
        (fun s => s.doc_id == did) = some node := by
  intro l
  induction l with
  | nil => intro h; cases h
  | cons s t ih =>
    intro h
    rw [List.map_cons]
    by_cases hs : s.doc_id = did
    · have hfs : (if s.doc_id == did then node else s) = node := by simp [hs]
      rw [hfs]
      exact List.find?_cons_of_pos _ hnode
    · have hfs : (if s.doc_id == did then node else s) = s := by simp [hs]
      rw [hfs]
      rw [List.find?_cons_of_neg]
      · apply ih
        rw [List.any_cons] at h
        have hps : (s.doc_id == did) = false := by simp [hs]
        rw [hps] at h
        simpa using h
      · simp [hs]

/-- Appending a node with the `doc_id` at the end; `find?` returns it
when no earlier node carried the id. -/
theorem find?_append_new (did : String) (node : StandardNode)
    (hnode : (node.doc_id == did) = true) :
    ∀ l : List StandardNode, l.any (fun s => s.doc_id == did) = false →
      (l ++ [node]).find? (fun s => s.doc_id == did) = some node := by
  intro l
  induction l with
  | nil =>
    intro _
    rw [List.nil_append]
    exact List.find?_cons_of_pos _ hnode
  | cons s t ih =>
    intro h
    rw [List.any_cons] at h
    rcases Bool.or_eq_false_iff.mp h with ⟨hs, ht⟩
    rw [List.cons_append, List.find?_cons_of_neg]
    · exact ih ht
    · simp [hs]

/-- `MERGE (s:StandardDocument {doc_id}) SET ... s.embedding = $embedding`
leaves exactly the given vector on the node with that `doc_id`. -/
theorem find_standard_merge (g : Graph) (row : DocRow) (v : List Int) :
    find_standard (merge_standard g row v) row.doc_id =
      some { doc_id := row.doc_id, standard_code := row.standard_code
             title := row.title, total_pages := row.total_pages
             extraction_timestamp := row.extraction_date, embedding := v } := by
  unfold merge_standard find_standard
  split
  · rename_i hany
    exact find?_update_of_any row.doc_id _ (by simp) g.standards hany
  · rename_i hany
    exact find?_append_new row.doc_id _ (by simp) g.standards
      (by simpa using hany)

/-- C9: over a full RDS run the texts submitted to the embedding model
are exactly `standard_code ++ " " ++ title` per row, a missing title
replaced by the empty string; and ingesting a row stores the vector the
embedding service returned for that text on the `:StandardDocument`
node's `embedding` property. -/
theorem c9_embedding_text_and_storage :
    (∀ (embed : String → List Int) (docs : List DocRow) (g : Graph),
      (ingest_rds_data embed docs g).2 =
        docs.map (fun d => d.standard_code ++ " " ++ d.title.getD "")) ∧
    (∀ (embed : String → List Int) (g : Graph) (d : DocRow),
      find_standard ((ingest_rds_data embed [d] g).1) d.doc_id =
        some { doc_id := d.doc_id, standard_code := d.standard_code
               title := d.title, total_pages := d.total_pages
               extraction_timestamp := d.extraction_date
               embedding := embed (d.standard_code ++ " " ++ d.title.getD "") }) := by
  constructor
  · intro embed docs g
    unfold ingest_rds_data
    rw [rds_fold_log]
    simp
  · intro embed g d
    exact find_standard_merge g d _

/-! ## C1: the reference-linking pass -/

/-- Existing `REFERENCES` edges survive the `MERGE` of a result set. -/
theorem mem_mergeRefs_left (p : Nat × String) :
    ∀ (pairs refs : List (Nat × String)), p ∈ refs → p ∈ mergeRefs refs pairs := by
  intro pairs refs h
  unfold mergeRefs
  apply foldl_pres (fun r => p ∈ r) _ pairs refs _ h
  intro t a _ ht
  split
  · exact ht
  · exact List.mem_append_left _ ht

/-- Every pair of the result set is present after the `MERGE`. -/
theorem mem_mergeRefs_right (p : Nat × String) :
    ∀ (pairs refs : List (Nat × String)), p ∈ pairs → p ∈ mergeRefs refs pairs := by
  intro pairs
  induction pairs with
  | nil => intro refs h; cases h
  | cons q t ih =>
    intro refs h
    show p ∈ List.foldl _ (if q ∈ refs then refs else refs ++ [q]) t
    rcases List.mem_cons.mp h with h | h
    · subst h
      apply mem_mergeRefs_left p t
      split
      · assumption
      · exact List.mem_append_right _ (List.mem_singleton.mpr rfl)
    · exact ih _ h

/-- A note node carrying the queried `note_id` and a standard whose code
contains the digit group produce their pair in the linking result set. -/
theorem mem_refPairs (g : Graph) (note_id code_num : String)
    (n : EngNoteNode) (s : StandardNode) (hn : n ∈ g.engNotes)
    (hnid : n.note_id = note_id) (hs : s ∈ g.standards)
    (hc : strContains s.standard_code code_num = true) :
    (n.nodeKey, s.doc_id) ∈ refPairs g note_id code_num := by
  unfold refPairs
  apply mem_foldl_append
    (fun n => (g.standards.filter
      (fun s => strContains s.standard_code code_num)).map
        (fun s => (n.nodeKey, s.doc_id))) n
  · exact List.mem_map.mpr
      ⟨s, List.mem_filter.mpr ⟨hs, by simpa using hc⟩, rfl⟩
  · exact List.mem_filter.mpr ⟨hn, by simp [hnid]⟩

/-- `linkOne` does not change the notes. -/
theorem linkOne_engNotes (g : Graph) (note_id code_num : String) :
    (linkOne g note_id code_num).engNotes = g.engNotes := rfl

/-- `linkOne` does not change the standards. -/
theorem linkOne_standards (g : Graph) (note_id code_num : String) :
    (linkOne g note_id code_num).standards = g.standards := rfl

/-- `linkOne` only grows the `REFERENCES` edges. -/
theorem linkOne_refs_mono (g : Graph) (note_id code_num : String)
    (p : Nat × String) (h : p ∈ g.references) :
    p ∈ (linkOne g note_id code_num).references :=
  mem_mergeRefs_left p _ _ h

/-- `linkOne` creates the edge for every matching note node and standard. -/
theorem linkOne_creates (g : Graph) (code_num : String) (n : EngNoteNode)
    (s : StandardNode) (hn : n ∈ g.engNotes) (hs : s ∈ g.standards)
    (hc : strContains s.standard_code code_num = true) :
    (n.nodeKey, s.doc_id) ∈ (linkOne g n.note_id code_num).references :=
  mem_mergeRefs_right _ _ _ (mem_refPairs g n.note_id code_num n s hn rfl hs hc)

/-- C1: for every `:EngineeringNote` in the graph, every digit group that
`re.findall(r"STD\s?([0-9]+)", content)` extracts from its content, and
every `:StandardDocument` whose `standard_code` contains that digit group
as a substring, the linking pass leaves a `REFERENCES` edge from the note
to that standard. -/
theorem c1_linking_pass (g : Graph) (n : EngNoteNode) (code_num : String)
    (s : StandardNode) (hn : n ∈ g.engNotes)
    (hcode : code_num ∈ findallSTD n.content) (hs : s ∈ g.standards)
    (hc : strContains s.standard_code code_num = true) :
    (n.nodeKey, s.doc_id) ∈ (create_relationships g).references := by
  unfold create_relationships
  refine foldl_estab
    (fun a : Graph => a.engNotes = g.engNotes ∧ a.standards = g.standards)
    (fun a : Graph => (n.nodeKey, s.doc_id) ∈ a.references)
    (fun acc note => (findallSTD note.content).foldl
      (fun a c => linkOne a note.note_id c) acc)
    n ?_ ?_ ?_ g.engNotes g hn ⟨rfl, rfl⟩
  · intro t a ht
    constructor
    · exact foldl_pres (fun x : Graph => x.engNotes = g.engNotes)
        (fun a2 c => linkOne a2 a.note_id c) (findallSTD a.content) t
        (fun u c _ hu => hu) ht.1
    · exact foldl_pres (fun x : Graph => x.standards = g.standards)
        (fun a2 c => linkOne a2 a.note_id c) (findallSTD a.content) t
        (fun u c _ hu => hu) ht.2
  · intro t a ht
    exact foldl_pres (fun x : Graph => (n.nodeKey, s.doc_id) ∈ x.references)
      (fun a2 c => linkOne a2 a.note_id c) (findallSTD a.content) t
      (fun u c _ hu => linkOne_refs_mono u a.note_id c _ hu) ht
  · intro t ht
    exact foldl_estab
      (fun x : Graph => x.engNotes = g.engNotes ∧ x.standards = g.standards)
      (fun x : Graph => (n.nodeKey, s.doc_id) ∈ x.references)
      (fun a c => linkOne a n.note_id c) code_num
      (fun u c hu => hu)
      (fun u c hu => linkOne_refs_mono u n.note_id c _ hu)
      (fun u hu => linkOne_creates u code_num n s (hu.1.symm ▸ hn)
        (hu.2.symm ▸ hs) hc)
      (findallSTD n.content) t hcode ht

/-- Witness for C1: the note of `c1Graph` cites `STD 42` and the lone
standard's code `"STD 42"` contains `"42"`; the edge is created. -/
theorem c1_linking_pass_witness :
    ({ nodeKey := 0, note_id := "N1", note_type := "general"
       note_number := "1", content := "Torque values per STD 42 apply" } :
        EngNoteNode) ∈ c1Graph.engNotes ∧
    "42" ∈ findallSTD "Torque values per STD 42 apply" ∧
    ({ doc_id := "D1", standard_code := "STD 42", title := some "Torque"
       total_pages := 3, extraction_timestamp := "2024-01-01"
       embedding := [] } : StandardNode) ∈ c1Graph.standards ∧
    strContains "STD 42" "42" = true ∧
    (0, "D1") ∈ (create_relationships c1Graph).references :=
  ⟨by decide, by decide, by decide, by decide,
    c1_linking_pass c1Graph
      { nodeKey := 0, note_id := "N1", note_type := "general"
        note_number := "1", content := "Torque values per STD 42 apply" }
      "42"
      { doc_id := "D1", standard_code := "STD 42", title := some "Torque"
        total_pages := 3, extraction_timestamp := "2024-01-01"
        embedding := [] }
      (by decide) (by decide) (by decide) (by decide)⟩

/-! ## C10: orphan note rows and note attachment -/

/-- `merge_cad_file` leaves notes, `HAS_NOTE` edges and the key counter
untouched. -/
theorem merge_cad_file_rest (g : Graph) (row : CadFileRow) :
    (merge_cad_file g row).engNotes = g.engNotes ∧
    (merge_cad_file g row).hasNote = g.hasNote ∧
    (merge_cad_file g row).nextKey = g.nextKey := by
  unfold merge_cad_file
  split <;> exact ⟨rfl, rfl, rfl⟩

/-- `merge_material` leaves notes, `HAS_NOTE` edges, the key counter and
the `:CADFile` nodes untouched. -/
theorem merge_material_rest (g : Graph) (row : MaterialRow) :
    (merge_material g row).engNotes = g.engNotes ∧
    (merge_material g row).hasNote = g.hasNote ∧
    (merge_material g row).nextKey = g.nextKey ∧
    (merge_material g row).cadFiles = g.cadFiles := by
  simp only [merge_material]
  split
  · split
    · split <;> exact ⟨rfl, rfl, rfl, rfl⟩
    · split <;> exact ⟨rfl, rfl, rfl, rfl⟩
  · exact ⟨rfl, rfl, rfl, rfl⟩

/-- `MERGE` on `:CADFile` never removes a `file_id` from the graph. -/
theorem any_file_id_merge_cad_file (g : Graph) (row : CadFileRow)
    (fid : String)
    (h : g.cadFiles.any (fun c => c.file_id == fid) = true) :
    (merge_cad_file g row).cadFiles.any (fun c => c.file_id == fid) = true := by
  unfold merge_cad_file
  rcases List.any_eq_true.mp h with ⟨c, hc, hpc⟩
  have hcfid : c.file_id = fid := by simpa using hpc
  split
  · apply List.any_eq_true.mpr
    refine ⟨_, List.mem_map.mpr ⟨c, hc, rfl⟩, ?_⟩
    by_cases hcf : c.file_id = row.file_id
    · rw [hcf] at hcfid
      simp [hcf, hcfid]
    · have hcf2 : ¬ fid = row.file_id := by
        rw [← hcfid]
        exact hcf
      simp [hcfid, hcf2]
  · exact List.any_eq_true.mpr ⟨c, List.mem_append_left _ hc, hpc⟩

/-- `create_note` preserves the attachment invariant when the processed
row satisfies `P`. -/
theorem create_note_attached (P : NoteRow → Prop) (g : Graph)
    (row : NoteRow) (hrow : P row) (h : notesWellAttached P g) :
    notesWellAttached P (create_note g row) := by
  obtain ⟨hb1, hb2, hmain⟩ := h
  unfold create_note
  split
  · rename_i hcad
    refine ⟨?_, ?_, ?_⟩
    · intro n hn
      rcases List.mem_append.mp hn with hn | hn
      · exact Nat.lt_succ_of_lt (hb1 n hn)
      · rw [List.mem_singleton.mp hn]
        exact Nat.lt_succ_self _
    · intro e he
      rcases List.mem_append.mp he with he | he
      · exact Nat.lt_succ_of_lt (hb2 e he)
      · rw [List.mem_singleton.mp he]
        exact Nat.lt_succ_self _
    · intro n hn
      rcases List.mem_append.mp hn with hn | hn
      · obtain ⟨r, hPr, hm, hfilter, hany⟩ := hmain n hn
        refine ⟨r, hPr, hm, ?_, hany⟩
        rw [List.filter_append, hfilter]
        have hne : (g.nextKey == n.nodeKey) = false := by
          simpa using Nat.ne_of_gt (hb1 n hn)
        simp [hne]
      · have hn' := List.mem_singleton.mp hn
        subst hn'
        refine ⟨row, hrow, ⟨rfl, rfl, rfl, rfl⟩, ?_, hcad⟩
        rw [List.filter_append]
        have hold : g.hasNote.filter (fun e => e.2 == g.nextKey) = [] := by
          apply List.filter_eq_nil_iff.mpr
          intro e he
          simpa using Nat.ne_of_lt (hb2 e he)
        rw [hold]
        simp
  · exact ⟨hb1, hb2, hmain⟩

/-- `merge_cad_file` preserves the attachment invariant. -/
theorem merge_cad_file_attached (P : NoteRow → Prop) (g : Graph)
    (row : CadFileRow) (h : notesWellAttached P g) :
    notesWellAttached P (merge_cad_file g row) := by
  obtain ⟨he, hh, hk⟩ := merge_cad_file_rest g row
  obtain ⟨hb1, hb2, hmain⟩ := h
  refine ⟨?_, ?_, ?_⟩
  · intro n hn
    rw [he] at hn
    rw [hk]
    exact hb1 n hn
  · intro e hedge
    rw [hh] at hedge
    rw [hk]
    exact hb2 e hedge
  · intro n hn
    rw [he] at hn
    obtain ⟨r, hPr, hm, hfilter, hany⟩ := hmain n hn
    exact ⟨r, hPr, hm, by rw [hh]; exact hfilter,
      any_file_id_merge_cad_file g row r.file_id hany⟩

/-- `merge_material` preserves the attachment invariant. -/
theorem merge_material_attached (P : NoteRow → Prop) (g : Graph)
    (row : MaterialRow) (h : notesWellAttached P g) :
    notesWellAttached P (merge_material g row) := by
  obtain ⟨he, hh, hk, hc⟩ := merge_material_rest g row
  obtain ⟨hb1, hb2, hmain⟩ := h
  refine ⟨?_, ?_, ?_⟩
  · intro n hn
    rw [he] at hn
    rw [hk]
    exact hb1 n hn
  · intro e hedge
    rw [hh] at hedge
    rw [hk]
    exact hb2 e hedge
  · intro n hn
    rw [he] at hn
    obtain ⟨r, hPr, hm, hfilter, hany⟩ := hmain n hn
    exact ⟨r, hPr, hm, by rw [hh]; exact hfilter, by rw [hc]; exact hany⟩

/-- After a CAD ingestion from the cleared graph, every note node comes
from a source row, is attached exactly once, and to an existing file. -/
theorem ingest_cad_attached (db : CadDb) :
    notesWellAttached (fun r => r ∈ db.cad_engineering_notes)
      (ingest_cad_data db emptyGraph) := by
  unfold ingest_cad_data
  apply foldl_pres
    (notesWellAttached (fun r => r ∈ db.cad_engineering_notes))
    merge_material _ _
    (fun t a _ ht => merge_material_attached _ t a ht)
  apply foldl_pres
    (notesWellAttached (fun r => r ∈ db.cad_engineering_notes))
    create_note _ _
    (fun t a ha ht => create_note_attached _ t a ha ht)
  apply foldl_pres
    (notesWellAttached (fun r => r ∈ db.cad_engineering_notes))
    merge_cad_file _ _
    (fun t a _ ht => merge_cad_file_attached _ t a ht)
  refine ⟨?_, ?_, ?_⟩ <;> intro x hx <;> exact absurd hx (List.not_mem_nil x)

/-- C10: a note row whose `file_id` matches no `:CADFile` node changes
nothing — no `:EngineeringNote` node, no `HAS_NOTE` edge, and no error
(the operation is total and returns the graph unchanged); and every
`:EngineeringNote` node created by a CAD ingestion run carries the values
of a source note row and has exactly one `HAS_NOTE` edge, whose file end
is exactly its row's `file_id`, a `file_id` an existing `:CADFile` node
carries. -/
theorem c10_orphan_rows_and_attachment :
    (∀ (g : Graph) (row : NoteRow),
      g.cadFiles.any (fun c => c.file_id == row.file_id) = false →
      create_note g row = g) ∧
    (∀ (db : CadDb) (n : EngNoteNode),
      n ∈ (ingest_cad_data db emptyGraph).engNotes →
      ∃ row ∈ db.cad_engineering_notes, noteRowMatches row n ∧
        (ingest_cad_data db emptyGraph).hasNote.filter
          (fun e => e.2 == n.nodeKey) = [(row.file_id, n.nodeKey)] ∧
        (ingest_cad_data db emptyGraph).cadFiles.any
          (fun c => c.file_id == row.file_id) = true) := by
  constructor
  · intro g row h
    unfold create_note
    rw [if_neg]
    simp [h]
  · intro db n hn
    obtain ⟨_, _, hmain⟩ := ingest_cad_attached db
    obtain ⟨row, hPr, hm, hfilter, hany⟩ := hmain n hn
    exact ⟨row, hPr, hm, hfilter, hany⟩

/-- Witness for C10: ingesting `c10Db` creates only the attached note;
the orphan row leaves the graph unchanged. -/
theorem c10_orphan_rows_and_attachment_witness :
    ((ingest_cad_data c10Db emptyGraph).cadFiles.any
      (fun c => c.file_id == c10OrphanRow.file_id) = false) ∧
    create_note (ingest_cad_data c10Db emptyGraph) c10OrphanRow =
      ingest_cad_data c10Db emptyGraph ∧
    c10Note ∈ (ingest_cad_data c10Db emptyGraph).engNotes ∧
    (∃ row ∈ c10Db.cad_engineering_notes, noteRowMatches row c10Note ∧
      (ingest_cad_data c10Db emptyGraph).hasNote.filter
        (fun e => e.2 == c10Note.nodeKey) = [(row.file_id, c10Note.nodeKey)] ∧
      (ingest_cad_data c10Db emptyGraph).cadFiles.any
        (fun c => c.file_id == row.file_id) = true) :=
  ⟨by decide,
    c10_orphan_rows_and_attachment.1 (ingest_cad_data c10Db emptyGraph)
      c10OrphanRow (by decide),
    by decide,
    c10_orphan_rows_and_attachment.2 c10Db c10Note (by decide)⟩

end GraphRag
